import Mathlib

/-!
Verification of the viz-python-lib client core against its specification.

The development shallowly embeds the two source files:
  * `src/viz/viz.py`      — the `Client` operation builders (transfer, award,
    custom, withdraw_vesting, transfer_to_vesting, set_withdraw_vesting_route);
  * `src/vizapi/noderpc.py` — the RPC layer (`NodeRPC.post_process_exception`,
    `NodeRPC.updated_connection`, `Rpc.__getattr__`).

Python floats are modelled as exact rationals, Python `int()` as truncation
toward zero, Python dicts with optional keys as `Option`-valued fields, and
raised exceptions as `Except` error results.  External collaborators that the
core only calls through narrow interfaces (the memo codec, the `Amount`
renderer, the signing/broadcast finalizer) are parameters of the embedded
functions.
-/

namespace VizLib

/-- Python exceptions raised by the embedded code.  `valueError` models
`ValueError(msg)`; `keyError` models a `KeyError` from a dict subscript. -/
inductive PyError where
  | valueError (msg : String)
  | keyError (key : String)
  deriving Repr, DecidableEq

/-- Decidable equality of `Except` results, so that concrete runs of the
embedded functions can be settled by `decide`. -/
instance exceptDecEq {ε α : Type} [DecidableEq ε] [DecidableEq α] :
    DecidableEq (Except ε α) := fun x y =>
  match x, y with
  | .error a, .error b =>
    if h : a = b then .isTrue (by rw [h])
    else .isFalse (by intro hc; cases hc; exact h rfl)
  | .error _, .ok _ => .isFalse (by intro hc; cases hc)
  | .ok _, .error _ => .isFalse (by intro hc; cases hc)
  | .ok a, .ok b =>
    if h : a = b then .isTrue (by rw [h])
    else .isFalse (by intro hc; cases hc; exact h rfl)

/-- The signing roles of the chain (spec `KeyRole`). -/
inductive KeyRole where
  | owner
  | active
  | regular
  | memo
  deriving Repr, DecidableEq

/-- The slice of `self.config` the builders consult: the optional
`default_account` entry.  `none` models an absent key; `some s` a present key
whose value is `s` (possibly the empty, falsy, string). -/
structure Config where
  default_account : Option String
  deriving Repr, DecidableEq

/-- Python truthiness of an optional string: `None` and `""` are falsy. -/
def isFalsy : Option String → Bool
  | none => true
  | some s => s = ""

/-- Embeds the account-resolution prelude shared verbatim by `transfer`,
`award`, `withdraw_vesting`, `transfer_to_vesting` and
`set_withdraw_vesting_route` in `src/viz/viz.py`:

    if not account:
        if "default_account" in self.config:
            account = self.config["default_account"]
    if not account:
        raise ValueError("You need to provide an account")
-/
def resolveAccount (account : Option String) (config : Config) :
    Except PyError String :=
  let account :=
    if isFalsy account then
      match config.default_account with
      | some d => some d
      | none => account
    else account
  if isFalsy account then
    .error (.valueError "You need to provide an account")
  else
    .ok (account.getD "")

/-- Python `int()` applied to a rational (model of a float): truncation toward
zero. -/
def pyInt (q : ℚ) : ℤ :=
  if 0 ≤ q then ⌊q⌋ else ⌈q⌉

/-! ### Operation values

Each structure records exactly the keyword arguments `src/viz/viz.py` passes to
the corresponding `vizbase.operations` constructor. -/

structure TransferOp where
  fromAccount : String
  toAccount : String
  amount : String
  memo : String
  deriving Repr, DecidableEq

structure AwardOp where
  initiator : String
  receiver : String
  energy : ℤ
  custom_sequence : ℤ
  memo : String
  beneficiaries : List (String × ℤ)
  deriving Repr, DecidableEq

structure CustomOp where
  json : String
  required_active_auths : List String
  required_regular_auths : List String
  id : String
  deriving Repr, DecidableEq

structure WithdrawVestingOp where
  account : String
  vesting_shares : String
  deriving Repr, DecidableEq

structure TransferToVestingOp where
  fromAccount : String
  toAccount : String
  amount : String
  deriving Repr, DecidableEq

structure SetWithdrawVestingRouteOp where
  from_account : String
  to_account : String
  percent : ℤ
  auto_vest : Bool
  deriving Repr, DecidableEq

/-- What a successful builder hands to the external finalizer:
`self.finalizeOp(op, account, role)`. -/
structure Finalized (α : Type) where
  op : α
  account : String
  role : KeyRole
  deriving Repr, DecidableEq

/-! ### `Client.transfer` (src/viz/viz.py lines 90–120)

`amountRender` models the external `Amount("{} {}".format(amount, asset))`
renderer and `encrypt` the external memo codec
`Memo(from_account=account, to_account=to).encrypt(memo)`; both are opaque
collaborators of the builder. -/

def transfer (amountRender : ℚ → String → String)
    (encrypt : String → String → String → String)
    (toAcct : String) (amount : ℚ) (asset : String) (memo : String)
    (account : Option String) (config : Config) :
    Except PyError (Finalized TransferOp) := do
  let acct ← resolveAccount account config
  let amountStr := amountRender amount asset
  let memo2 :=
    if memo ≠ "" ∧ memo.front = '#' then encrypt acct toAcct memo else memo
  .ok ⟨⟨acct, toAcct, amountStr, memo2⟩, acct, .active⟩

/-! ### `Client.award` (src/viz/viz.py lines 129–167)

`chain1Percent` is `self.rpc.config[CHAIN_1_PERCENT]`, the node-reported
number of internal units in one percent (the percent-base divided by 100).
`customSequence` models `kwargs.get("custom_sequence", 0)`. -/

def award (chain1Percent : ℤ)
    (receiver : String) (energy : ℚ) (memo : String)
    (beneficiaries : Option (List (String × ℤ)))
    (account : Option String) (config : Config) (customSequence : Option ℤ) :
    Except PyError (Finalized AwardOp) := do
  let acct ← resolveAccount account config
  let bens := beneficiaries.getD []
  .ok ⟨⟨acct, receiver, pyInt (energy * chain1Percent),
        customSequence.getD 0, memo, bens⟩, acct, .regular⟩

/-! ### `Client.custom` (src/viz/viz.py lines 169–212)

The `None` defaults for the two auth lists are already replaced by `[]`, and
the `isinstance(..., list)` checks hold by typing.  The payload is kept
opaque as a string. -/

def custom (id_ : String) (json : String)
    (required_active_auths required_regular_auths : List String) :
    Except PyError (Finalized CustomOp) :=
  match required_active_auths with
  | a :: _ =>
      .ok ⟨⟨json, required_active_auths, required_regular_auths, id_⟩,
           a, .active⟩
  | [] =>
      match required_regular_auths with
      | r :: _ =>
          .ok ⟨⟨json, required_active_auths, required_regular_auths, id_⟩,
               r, .regular⟩
      | [] => .error (.valueError "At least one account needs to be specified")

/-! ### Fixed-point decimal rendering

Embeds the Python format expression used by `withdraw_vesting` and
`transfer_to_vesting`:

    "{:.{prec}f} {asset}".format(float(amount), prec=..., asset=...)

The float is modelled as an exact rational; `printf`-style `f` formatting
rounds the value to `prec` decimal places with ties going to the even digit
and always prints exactly `prec` fractional digits. -/

/-- Round a rational to the nearest integer, ties to the even integer. -/
def roundHalfEven (q : ℚ) : ℤ :=
  let f := ⌊q⌋
  let r := q - (f : ℚ)
  if r < 1 / 2 then f
  else if 1 / 2 < r then f + 1
  else if f % 2 = 0 then f else f + 1

/-- The decimal digit character for a digit value. -/
def digitChar10 (d : ℕ) : Char := Char.ofNat (48 + d)

/-- Big-endian decimal digit values of a natural number; `[0]` for zero. -/
def decDigitsBE (n : ℕ) : List ℕ :=
  if n = 0 then [0] else (Nat.digits 10 n).reverse

/-- Big-endian decimal digit characters of a natural number; `"0"` for zero. -/
def natDecChars (n : ℕ) : List Char := (decDigitsBE n).map digitChar10

/-- Exactly `p` big-endian fractional digit values for the scaled remainder
`fp`, left-padded with zeros. -/
def fracDigitsBE (fp : ℕ) (p : ℕ) : List ℕ :=
  let ds := Nat.digits 10 fp
  (ds ++ List.replicate (p - ds.length) 0).reverse

/-- Exactly `p` fractional digit characters, left-padded with zeros. -/
def fracPartChars (fp : ℕ) (p : ℕ) : List Char :=
  (fracDigitsBE fp p).map digitChar10

/-- Fixed-point rendering of the scaled integer `n` (the value times
`10 ^ p`) at `p` fractional digits. -/
def formatFixedInt (n : ℤ) (p : ℕ) : String :=
  let m := n.natAbs
  let body :=
    if p = 0 then natDecChars m
    else natDecChars (m / 10 ^ p) ++ '.' :: fracPartChars (m % 10 ^ p) p
  String.mk (if n < 0 then '-' :: body else body)

/-- `"{:.{p}f}".format(q)`: fixed-point rendering at `p` fractional digits:
round the scaled value half-to-even and render it. -/
def formatFixed (q : ℚ) (p : ℕ) : String :=
  formatFixedInt (roundHalfEven (q * (10 : ℚ) ^ p)) p

/-! ### Parsing a fixed-point decimal string back at a given precision -/

/-- The value of a decimal digit character, if it is one. -/
def digitVal? (c : Char) : Option ℕ :=
  if 48 ≤ c.toNat ∧ c.toNat ≤ 57 then some (c.toNat - 48) else none

/-- Parse every character as a decimal digit (big-endian digit values). -/
def parseDigits? : List Char → Option (List ℕ)
  | [] => some []
  | c :: cs =>
    match digitVal? c, parseDigits? cs with
    | some d, some ds => some (d :: ds)
    | _, _ => none

/-- Split a character list at the first dot: the part before it, and the part
after it when a dot occurs. -/
def splitAtDot : List Char → List Char × Option (List Char)
  | [] => ([], none)
  | c :: cs =>
    if c = '.' then ([], some cs)
    else
      let r := splitAtDot cs
      (c :: r.1, r.2)

/-- The numeric value of big-endian digit values `ds` (integer part) and `fs`
(fractional part at denominator `10 ^ p`). -/
def decValue (ds fs : List ℕ) (p : ℕ) : ℚ :=
  (Nat.ofDigits 10 ds.reverse : ℕ) + (Nat.ofDigits 10 fs.reverse : ℕ) / (10 : ℚ) ^ p

/-- Parse an unsigned fixed-point decimal at precision `p`: the fractional
part must have exactly `p` digits (no dot counts as zero digits). -/
def parseUnsignedFixed? (cs : List Char) (p : ℕ) : Option ℚ :=
  let r := splitAtDot cs
  let fpChars := r.2.getD []
  if fpChars.length = p then
    match parseDigits? r.1, parseDigits? fpChars with
    | some ds, some fs => some (decValue ds fs p)
    | _, _ => none
  else none

/-- Parse a fixed-point decimal string at precision `p`, allowing a sign. -/
def parseFixed? (s : String) (p : ℕ) : Option ℚ :=
  let cs := s.toList
  if cs.head? = some '-' then (parseUnsignedFixed? cs.tail p).map (fun q => -q)
  else parseUnsignedFixed? cs p

/-- The number of characters after the (first) decimal dot of a string, when
it has one. -/
def fracDigitCount (s : String) : Option ℕ :=
  ((splitAtDot s.toList).2).map List.length

/-! ### The vesting builders (src/viz/viz.py lines 214–308)

`precisions` models the external `vizbase.chains.PRECISIONS` table (spec:
symbol → fixed decimal precision); `ChainParams` is the slice of
`self.rpc.chain_params` the builders read. -/

structure ChainParams where
  core_symbol : String
  shares_symbol : String
  deriving Repr, DecidableEq

def withdraw_vesting (precisions : String → ℕ) (chainParams : ChainParams)
    (amount : ℚ) (account : Option String) (config : Config) :
    Except PyError (Finalized WithdrawVestingOp) := do
  let acct ← resolveAccount account config
  .ok ⟨⟨acct,
        formatFixed amount (precisions chainParams.shares_symbol) ++ " " ++
          chainParams.shares_symbol⟩, acct, .active⟩

def transfer_to_vesting (precisions : String → ℕ) (chainParams : ChainParams)
    (amount : ℚ) (toAcct : Option String) (account : Option String)
    (config : Config) : Except PyError (Finalized TransferToVestingOp) := do
  let acct ← resolveAccount account config
  let toAcct2 := if isFalsy toAcct then acct else toAcct.getD ""
  .ok ⟨⟨acct, toAcct2,
        formatFixed amount (precisions chainParams.core_symbol) ++ " " ++
          chainParams.core_symbol⟩, acct, .active⟩

def set_withdraw_vesting_route (chain1Percent : ℤ) (toAcct : String)
    (percentage : ℚ) (account : Option String) (autoVest : Bool)
    (config : Config) : Except PyError (Finalized SetWithdrawVestingRouteOp) := do
  let acct ← resolveAccount account config
  .ok ⟨⟨acct, toAcct, pyInt (percentage * chain1Percent), autoVest⟩,
       acct, .active⟩

/-! ### `NodeRPC.updated_connection` (src/vizapi/noderpc.py lines 44–51) -/

inductive Connection where
  | websocket (url : String)
  | http (url : String)
  deriving Repr, DecidableEq

def updated_connection (url : String) : Except PyError Connection :=
  if url.take 2 = "ws" then .ok (.websocket url)
  else if url.take 4 = "http" then .ok (.http url)
  else .error (.valueError "Only support http(s) and ws(s) connections!")

/-- The scheme of a URL: everything before the first colon. -/
def urlScheme (url : String) : String :=
  String.mk (url.toList.takeWhile (fun c => c != ':'))

/-! ### `NodeRPC.post_process_exception` (src/vizapi/noderpc.py lines 27–42)

The function classifies the decoded, stripped error message `msg`
(`exceptions.decodeRPCErrorMsg(e).strip()`, decoding being external).  The
second and third rules go through `re.match`, where `.` is a one-character
wildcard and parentheses delimit (empty or literal) groups, so they are
prefix matches with wildcards. -/

inductive RpcExceptionKind where
  | missingRequiredActiveAuthority
  | accountCouldntBeFound (msg : String)
  | invalidAccountName (msg : String)
  | noMethodWithName (msg : String)
  | unhandledRPCError (msg : String)
  | reraised
  deriving Repr, DecidableEq

/-- Drop `pat` from the front of `s` when it is literally there. -/
def dropLit : List Char → List Char → Option (List Char)
  | [], s => some s
  | _ :: _, [] => none
  | a :: as, b :: bs => if a = b then dropLit as bs else none

/-- `re.match` of a pattern made of literal segments separated by single
`.` wildcards (anchored at the start, as `re.match` is). -/
def matchWildSegs : List String → List Char → Bool
  | [], _ => true
  | [seg], s => (dropLit seg.toList s).isSome
  | seg :: seg2 :: segs, s =>
    match dropLit seg.toList s with
    | none => false
    | some [] => false
    | some (_ :: rest) => matchWildSegs (seg2 :: segs) rest

/-- Anchored match of a plain literal pattern (`re.match` with no
metacharacters left, and the `^...*` pattern of rule 4). -/
def matchLit (pat : String) (s : String) : Bool :=
  (dropLit pat.toList s.toList).isSome

/-- The regex of rule 2,
`current_account_itr == acnt_indx.indices().get<by_name>().end()`:
its dots are wildcards and its parentheses empty groups, leaving these
literal segments. -/
def accountMissSegs : List String :=
  ["current_account_itr == acnt_indx", "indices", "get<by_name>", "end"]

/-- The regex of rule 3, `Assert Exception: is_valid_name( name )`: its
parentheses form a group around the literal ` name `, so it matches this
literal prefix. -/
def invalidNamePat : String := "Assert Exception: is_valid_name name "

def post_process_exception (msg : String) : RpcExceptionKind :=
  if msg = "missing required active authority" then
    .missingRequiredActiveAuthority
  else if matchWildSegs accountMissSegs msg.toList then
    .accountCouldntBeFound msg
  else if matchLit invalidNamePat msg then .invalidAccountName msg
  else if matchLit "no method with name" msg then .noMethodWithName msg
  else if msg ≠ "" then .unhandledRPCError msg
  else .reraised

/-! ### `Rpc.__getattr__` (src/vizapi/noderpc.py lines 75–95)

The dynamic dispatcher.  `api_table` models the `API` dict imported from
`vizapi.consts` (not part of the embedded sources; modelled from the spec as
a static method-name to namespace table with Python dict subscript
semantics, a missing key raising `KeyError`).  The mutable `Rpc` object is
threaded as explicit state; `rpcexec`/`parse_response` are the external
transport, so a successful dispatch returns the envelope handed to them and
the retry bound in force for the send, and an error means no envelope was
ever built or sent. -/

structure RpcState where
  num_retries : ℤ
  next_request_id : ℕ
  deriving Repr, DecidableEq

structure Envelope where
  method : String
  api : String
  name : String
  args : List String
  id : ℕ
  deriving Repr, DecidableEq

structure Dispatch where
  envelope : Envelope
  retriesUsed : ℤ
  state : RpcState
  deriving Repr, DecidableEq

/-- Python dict lookup in an association list. -/
def lookupApi : List (String × String) → String → Option String
  | [], _ => none
  | (k, v) :: t, name => if k = name then some v else lookupApi t name

def rpcMethodCall (api_table : List (String × String)) (s : RpcState)
    (name : String) (args : List String)
    (apiKw : Option String) (numRetriesKw : Option ℤ) :
    Except PyError Dispatch :=
  -- api = kwargs.get("api", API[name]): Python evaluates the subscript
  -- API[name] before consulting kwargs, so a name missing from the table
  -- raises KeyError even when the caller supplies api explicitly.
  match lookupApi api_table name with
  | none => .error (.keyError name)
  | some tableApi =>
    let api := apiKw.getD tableApi
    -- self.num_retries = kwargs.get("num_retries", self.num_retries)
    let s1 : RpcState := { s with num_retries := numRetriesKw.getD s.num_retries }
    .ok ⟨⟨"call", api, name, args, s1.next_request_id⟩, s1.num_retries,
         { s1 with next_request_id := s1.next_request_id + 1 }⟩

/-- The envelopes a dispatch put on the wire: one on success, none when the
dispatcher failed before building the query. -/
def sentEnvelopes (r : Except PyError Dispatch) : List Envelope :=
  match r with
  | .ok d => [d.envelope]
  | .error _ => []

/-! ## Helper lemmas -/

theorem ok_bind {ε α β : Type} (a : α) (f : α → Except ε β) :
    ((Except.ok a : Except ε α) >>= f) = f a := rfl

theorem error_bind {ε α β : Type} (e : ε) (f : α → Except ε β) :
    ((Except.error e : Except ε α) >>= f) = Except.error e := rfl

theorem toList_mk (l : List Char) : (String.mk l).toList = l := rfl

theorem resolveAccount_explicit {a : String} (config : Config) (h : a ≠ "") :
    resolveAccount (some a) config = .ok a := by
  simp [resolveAccount, isFalsy, h]

theorem resolveAccount_fallback {account : Option String} {d : String}
    (config : Config) (h1 : isFalsy account = true)
    (h2 : config.default_account = some d) (h3 : d ≠ "") :
    resolveAccount account config = .ok d := by
  simp only [resolveAccount, h1, h2]
  simp [isFalsy, h3]

theorem resolveAccount_missing {account : Option String} {config : Config}
    (h1 : isFalsy account = true) (h2 : isFalsy config.default_account = true) :
    resolveAccount account config =
      .error (.valueError "You need to provide an account") := by
  cases hc : config.default_account with
  | none => simp [resolveAccount, h1, hc]
  | some d =>
    have hd : d = "" := by simpa [isFalsy, hc] using h2
    subst hd
    simp only [resolveAccount, h1, hc]
    simp [isFalsy]

/-! ### Decimal rendering and parsing lemmas -/

theorem roundHalfEven_intCast (n : ℤ) : roundHalfEven (n : ℚ) = n := by
  norm_num [roundHalfEven, Int.floor_intCast]

theorem digitVal?_digitChar10 {d : ℕ} (h : d < 10) :
    digitVal? (digitChar10 d) = some d := by
  interval_cases d <;> decide

theorem digitChar10_ne_dot {d : ℕ} (h : d < 10) : digitChar10 d ≠ '.' := by
  interval_cases d <;> decide

theorem digitChar10_ne_minus {d : ℕ} (h : d < 10) : digitChar10 d ≠ '-' := by
  interval_cases d <;> decide

theorem parseDigits?_map {ds : List ℕ} (h : ∀ d ∈ ds, d < 10) :
    parseDigits? (ds.map digitChar10) = some ds := by
  induction ds with
  | nil => rfl
  | cons d t ih =>
    have hd : d < 10 := h d (List.mem_cons_self d t)
    have ht : ∀ x ∈ t, x < 10 := fun x hx => h x (List.mem_cons_of_mem d hx)
    simp [parseDigits?, digitVal?_digitChar10 hd, ih ht]

theorem dot_not_mem_map {ds : List ℕ} (h : ∀ d ∈ ds, d < 10) :
    '.' ∉ ds.map digitChar10 := by
  intro hc
  rcases List.mem_map.mp hc with ⟨d, hd, he⟩
  exact digitChar10_ne_dot (h d hd) he

theorem splitAtDot_no_dot {l : List Char} (h : '.' ∉ l) :
    splitAtDot l = (l, none) := by
  induction l with
  | nil => rfl
  | cons c t ih =>
    have hc : ¬c = '.' := fun he => h (he ▸ List.mem_cons_self c t)
    have ht : '.' ∉ t := fun hm => h (List.mem_cons_of_mem c hm)
    simp [splitAtDot, hc, ih ht]

theorem splitAtDot_append {l : List Char} (r : List Char) (h : '.' ∉ l) :
    splitAtDot (l ++ '.' :: r) = (l, some r) := by
  induction l with
  | nil => simp [splitAtDot]
  | cons c t ih =>
    have hc : ¬c = '.' := fun he => h (he ▸ List.mem_cons_self c t)
    have ht : '.' ∉ t := fun hm => h (List.mem_cons_of_mem c hm)
    simp [splitAtDot, hc, ih ht]

theorem decDigitsBE_lt (n : ℕ) : ∀ d ∈ decDigitsBE n, d < 10 := by
  intro d hd
  by_cases h : n = 0
  · simp [decDigitsBE, h] at hd
    omega
  · simp [decDigitsBE, h] at hd
    exact Nat.digits_lt_base (by norm_num) hd

theorem ofDigits_decDigitsBE (n : ℕ) :
    Nat.ofDigits 10 (decDigitsBE n).reverse = n := by
  by_cases h : n = 0
  · simp [decDigitsBE, h, Nat.ofDigits]
  · simp [decDigitsBE, h, Nat.ofDigits_digits]

theorem decDigitsBE_ne_nil (n : ℕ) : decDigitsBE n ≠ [] := by
  by_cases h : n = 0
  · simp [decDigitsBE, h]
  · simp [decDigitsBE, h, Nat.digits_ne_nil_iff_ne_zero.mpr h]

theorem ofDigits_replicate_zero (k : ℕ) :
    Nat.ofDigits 10 (List.replicate k 0) = 0 := by
  induction k with
  | zero => rfl
  | succ m ih => simp [List.replicate_succ, Nat.ofDigits_cons, ih]

theorem fracDigitsBE_lt (fp p : ℕ) : ∀ d ∈ fracDigitsBE fp p, d < 10 := by
  intro d hd
  simp only [fracDigitsBE, List.mem_reverse, List.mem_append] at hd
  rcases hd with h | h
  · exact Nat.digits_lt_base (by norm_num) h
  · have h2 := List.eq_of_mem_replicate h
    omega

theorem ofDigits_fracDigitsBE (fp p : ℕ) :
    Nat.ofDigits 10 (fracDigitsBE fp p).reverse = fp := by
  simp [fracDigitsBE, Nat.ofDigits_append, ofDigits_replicate_zero,
        Nat.ofDigits_digits]

theorem digits_len_le_of_lt_pow {m p : ℕ} (h : m < 10 ^ p) :
    (Nat.digits 10 m).length ≤ p := by
  by_cases hm : m = 0
  · simp [hm]
  · by_contra hlen
    push_neg at hlen
    have h1 : 10 ^ (Nat.digits 10 m).length ≤ 10 * m :=
      Nat.base_pow_length_digits_le 10 m (by norm_num) hm
    have h2 : 10 ^ (p + 1) ≤ 10 ^ (Nat.digits 10 m).length :=
      Nat.pow_le_pow_right (by norm_num) hlen
    rw [pow_succ] at h2
    have h3 : 10 ^ p * 10 ≤ 10 * m := le_trans h2 h1
    omega

theorem fracDigitsBE_length {fp p : ℕ} (h : fp < 10 ^ p) :
    (fracDigitsBE fp p).length = p := by
  have hlen : (Nat.digits 10 fp).length ≤ p := digits_len_le_of_lt_pow h
  simp [fracDigitsBE]
  omega

theorem div_add_mod_div (m p : ℕ) :
    ((m / 10 ^ p : ℕ) : ℚ) + ((m % 10 ^ p : ℕ) : ℚ) / (10 : ℚ) ^ p =
      (m : ℚ) / 10 ^ p := by
  have h10 : ((10 : ℚ) ^ p) ≠ 0 := by positivity
  have key : 10 ^ p * (m / 10 ^ p) + m % 10 ^ p = m := Nat.div_add_mod m (10 ^ p)
  have hc : ((10 : ℚ) ^ p) * ((m / 10 ^ p : ℕ) : ℚ) + ((m % 10 ^ p : ℕ) : ℚ) =
      (m : ℚ) := by
    exact_mod_cast congrArg (fun k : ℕ => (k : ℚ)) key
  field_simp
  linarith [hc]

theorem parseUnsignedFixed?_format (m p : ℕ) :
    parseUnsignedFixed?
      (if p = 0 then natDecChars m
       else natDecChars (m / 10 ^ p) ++ '.' :: fracPartChars (m % 10 ^ p) p)
      p = some ((m : ℚ) / 10 ^ p) := by
  by_cases hp : p = 0
  · subst hp
    rw [if_pos rfl]
    have hnd : '.' ∉ natDecChars m := dot_not_mem_map (decDigitsBE_lt m)
    have hd1 : parseDigits? (natDecChars m) = some (decDigitsBE m) := by
      rw [natDecChars]; exact parseDigits?_map (decDigitsBE_lt m)
    simp only [parseUnsignedFixed?, splitAtDot_no_dot hnd, Option.getD_none,
               List.length_nil, hd1, parseDigits?]
    rw [decValue]
    simp [ofDigits_decDigitsBE, Nat.ofDigits_nil]
  · rw [if_neg hp]
    have hnd : '.' ∉ natDecChars (m / 10 ^ p) :=
      dot_not_mem_map (decDigitsBE_lt _)
    have hfp : m % 10 ^ p < 10 ^ p := Nat.mod_lt _ (by positivity)
    have hlen : (fracPartChars (m % 10 ^ p) p).length = p := by
      simp [fracPartChars, fracDigitsBE_length hfp]
    have hd1 : parseDigits? (natDecChars (m / 10 ^ p)) =
        some (decDigitsBE (m / 10 ^ p)) := by
      rw [natDecChars]; exact parseDigits?_map (decDigitsBE_lt _)
    have hd2 : parseDigits? (fracPartChars (m % 10 ^ p) p) =
        some (fracDigitsBE (m % 10 ^ p) p) := by
      rw [fracPartChars]; exact parseDigits?_map (fracDigitsBE_lt _ _)
    simp only [parseUnsignedFixed?, splitAtDot_append _ hnd, Option.getD_some]
    rw [if_pos hlen]
    simp only [hd1, hd2]
    rw [decValue]
    rw [ofDigits_decDigitsBE, ofDigits_fracDigitsBE, div_add_mod_div]

theorem natDecChars_head (m : ℕ) :
    ∃ c t, natDecChars m = c :: t ∧ c ≠ '-' ∧ c ≠ '.' := by
  rcases List.exists_cons_of_ne_nil (decDigitsBE_ne_nil m) with ⟨d, ds, hds⟩
  have hd : d < 10 := decDigitsBE_lt m d (by rw [hds]; exact List.mem_cons_self d ds)
  refine ⟨digitChar10 d, ds.map digitChar10, ?_, digitChar10_ne_minus hd,
          digitChar10_ne_dot hd⟩
  rw [natDecChars, hds, List.map_cons]

theorem parseFixed?_formatFixedInt (n : ℤ) (p : ℕ) :
    parseFixed? (formatFixedInt n p) p = some ((n : ℚ) / 10 ^ p) := by
  have hbody := parseUnsignedFixed?_format n.natAbs p
  rcases le_or_lt 0 n with hn | hn
  · have hneg : ¬n < 0 := not_lt.mpr hn
    have hcast : ((n.natAbs : ℕ) : ℚ) = (n : ℚ) := by
      rw [Int.cast_natAbs]
      exact_mod_cast abs_of_nonneg hn
    obtain ⟨c, t, hct, hcm, -⟩ := natDecChars_head
      (if p = 0 then n.natAbs else n.natAbs / 10 ^ p)
    have hshape : (if p = 0 then natDecChars n.natAbs
        else natDecChars (n.natAbs / 10 ^ p) ++
          '.' :: fracPartChars (n.natAbs % 10 ^ p) p) =
        c :: (if p = 0 then t
          else t ++ '.' :: fracPartChars (n.natAbs % 10 ^ p) p) := by
      by_cases hp : p = 0
      · simp only [if_pos hp] at hct ⊢
        rw [hct]
      · simp only [if_neg hp] at hct ⊢
        rw [hct]
        rfl
    rw [formatFixedInt]
    simp only [if_neg hneg]
    rw [parseFixed?]
    simp only [toList_mk, hshape, List.head?_cons, List.tail_cons]
    rw [if_neg (by simp [hcm])]
    rw [← hshape, hbody, hcast]
  · have hcast : ((n.natAbs : ℕ) : ℚ) = -(n : ℚ) := by
      rw [Int.cast_natAbs]
      exact_mod_cast abs_of_neg hn
    rw [formatFixedInt]
    simp only [if_pos hn]
    rw [parseFixed?]
    simp only [toList_mk, List.head?_cons, List.tail_cons]
    rw [if_pos trivial]
    rw [hbody]
    simp only [Option.map_some']
    congr 1
    rw [hcast]
    ring

theorem formatFixed_scaled (n : ℤ) (p : ℕ) :
    formatFixed ((n : ℚ) / 10 ^ p) p = formatFixedInt n p := by
  have h10 : ((10 : ℚ) ^ p) ≠ 0 := by positivity
  rw [formatFixed, div_mul_cancel₀ _ h10, roundHalfEven_intCast]

theorem fracDigitCount_formatFixedInt (n : ℤ) {p : ℕ} (hp : 0 < p) :
    fracDigitCount (formatFixedInt n p) = some p := by
  have hp0 : ¬p = 0 := by omega
  have hfp : n.natAbs % 10 ^ p < 10 ^ p := Nat.mod_lt _ (by positivity)
  have hlen : (fracPartChars (n.natAbs % 10 ^ p) p).length = p := by
    simp [fracPartChars, fracDigitsBE_length hfp]
  have hnd : '.' ∉ natDecChars (n.natAbs / 10 ^ p) :=
    dot_not_mem_map (decDigitsBE_lt _)
  rw [formatFixedInt]
  simp only [if_neg hp0]
  by_cases hn : n < 0
  · simp only [if_pos hn]
    rw [fracDigitCount]
    simp only [toList_mk]
    have hnd2 : '.' ∉ '-' :: natDecChars (n.natAbs / 10 ^ p) := by
      intro hc
      rcases List.mem_cons.mp hc with h | h
      · exact absurd h (by decide)
      · exact hnd h
    rw [show ('-' :: (natDecChars (n.natAbs / 10 ^ p) ++
          '.' :: fracPartChars (n.natAbs % 10 ^ p) p)) =
        ('-' :: natDecChars (n.natAbs / 10 ^ p)) ++
          '.' :: fracPartChars (n.natAbs % 10 ^ p) p from rfl]
    rw [splitAtDot_append _ hnd2]
    simp [hlen]
  · simp only [if_neg hn]
    rw [fracDigitCount]
    simp only [toList_mk]
    rw [splitAtDot_append _ hnd]
    simp [hlen]

/-! ## Claim theorems -/

/-- C2: `custom` validates its auth lists before building any operation:
with both lists empty it raises the validation error, otherwise the acting
account is the head of the non-empty list (the active list taking
precedence) and the signing role is active when the active list is
non-empty, else regular. -/
theorem custom_requires_exclusive_auths (id_ json : String)
    (activeAuths regularAuths : List String) :
    (activeAuths = [] → regularAuths = [] →
      custom id_ json activeAuths regularAuths =
        .error (.valueError "At least one account needs to be specified")) ∧
    (∀ a rest, activeAuths = a :: rest →
      custom id_ json activeAuths regularAuths =
        .ok ⟨⟨json, activeAuths, regularAuths, id_⟩, a, .active⟩) ∧
    (∀ r rest, activeAuths = [] → regularAuths = r :: rest →
      custom id_ json activeAuths regularAuths =
        .ok ⟨⟨json, activeAuths, regularAuths, id_⟩, r, .regular⟩) := by
  refine ⟨fun h1 h2 => ?_, fun a rest h => ?_, fun r rest h1 h2 => ?_⟩
  · subst h1; subst h2; rfl
  · subst h; rfl
  · subst h1; subst h2; rfl

/-- Witness for C2: both lists empty raise the validation error; with both
lists non-empty the account is the head of the active list and the role is
active. -/
theorem custom_requires_exclusive_auths_witness :
    custom "test" "payload" [] [] =
      .error (.valueError "At least one account needs to be specified") ∧
    custom "test" "payload" ["alice"] ["bob"] =
      .ok ⟨⟨"payload", ["alice"], ["bob"], "test"⟩, "alice", .active⟩ :=
  ⟨(custom_requires_exclusive_auths "test" "payload" [] []).1 rfl rfl,
   (custom_requires_exclusive_auths "test" "payload" ["alice"] ["bob"]).2.1
     "alice" [] rfl⟩

/-- C3 counterexample: with an api supplied explicitly, a method name absent
from the table still fails, because Python evaluates the subscript
`API[name]` inside `kwargs.get("api", API[name])` before consulting
`kwargs` — it does not proceed with the explicit namespace as claimed. -/
theorem rpc_explicit_api_unknown_counterexample :
    lookupApi [("get_block", "database_api")] "made_up_call" = none ∧
    rpcMethodCall [("get_block", "database_api")] ⟨5, 0⟩ "made_up_call" []
        (some "database_api") none = .error (.keyError "made_up_call") := by
  decide

/-- C3 amended: the api namespace is taken from the explicit argument when
one is supplied and from the table otherwise, but the table subscript is
evaluated unconditionally, so a method name absent from the table fails with
the unknown-method KeyError even when an api is supplied explicitly. -/
theorem rpc_api_resolution (table : List (String × String)) (s : RpcState)
    (name : String) (args : List String) (apiKw : Option String)
    (nrk : Option ℤ) :
    (lookupApi table name = none →
      rpcMethodCall table s name args apiKw nrk = .error (.keyError name)) ∧
    (∀ d, lookupApi table name = some d →
      rpcMethodCall table s name args apiKw nrk =
        .ok ⟨⟨"call", apiKw.getD d, name, args, s.next_request_id⟩,
             nrk.getD s.num_retries,
             ⟨nrk.getD s.num_retries, s.next_request_id + 1⟩⟩) := by
  constructor
  · intro h; simp [rpcMethodCall, h]
  · intro d h; simp [rpcMethodCall, h]

/-- Witness for C3 amended: an unknown name fails despite the explicit api;
a known name with an explicit api dispatches under that namespace. -/
theorem rpc_api_resolution_witness :
    rpcMethodCall [("get_block", "database_api")] ⟨5, 0⟩ "made_up_call" []
        (some "database_api") none = .error (.keyError "made_up_call") ∧
    rpcMethodCall [("get_block", "database_api")] ⟨5, 0⟩ "get_block" ["1"]
        (some "custom_api") none =
      .ok ⟨⟨"call", "custom_api", "get_block", ["1"], 0⟩, 5, ⟨5, 1⟩⟩ :=
  ⟨(rpc_api_resolution [("get_block", "database_api")] ⟨5, 0⟩ "made_up_call"
      [] (some "database_api") none).1 (by decide),
   (rpc_api_resolution [("get_block", "database_api")] ⟨5, 0⟩ "get_block"
      ["1"] (some "custom_api") none).2 "database_api" (by decide)⟩

/-- C4: a method name not registered in the table, called without an
explicit api, fails with the unknown-method error (a KeyError, the
client-side RpcProtocolError of the spec taxonomy) and nothing is ever
built for or sent over the connection. -/
theorem rpc_unknown_method_no_io (table : List (String × String))
    (s : RpcState) (name : String) (args : List String) (nrk : Option ℤ)
    (h : lookupApi table name = none) :
    rpcMethodCall table s name args none nrk = .error (.keyError name) ∧
    sentEnvelopes (rpcMethodCall table s name args none nrk) = [] := by
  constructor <;> simp [rpcMethodCall, sentEnvelopes, h]

/-- Witness for C4 at a concrete table and method name. -/
theorem rpc_unknown_method_no_io_witness :
    rpcMethodCall [("get_block", "database_api")] ⟨3, 7⟩ "bogus" [] none
        none = .error (.keyError "bogus") ∧
    sentEnvelopes (rpcMethodCall [("get_block", "database_api")] ⟨3, 7⟩
        "bogus" [] none none) = [] :=
  ⟨(rpc_unknown_method_no_io [("get_block", "database_api")] ⟨3, 7⟩ "bogus"
      [] none (by decide)).1,
   (rpc_unknown_method_no_io [("get_block", "database_api")] ⟨3, 7⟩ "bogus"
      [] none (by decide)).2⟩

/-- C7: the error translator is a pure function whose first rule wins: the
exact message yields the missing-active-authority error and never any later
branch — in particular never the catch-all — whatever else the message
might match. -/
theorem error_translator_active_authority :
    post_process_exception "missing required active authority" =
      .missingRequiredActiveAuthority ∧
    (∀ m, post_process_exception "missing required active authority" ≠
      .accountCouldntBeFound m) ∧
    (∀ m, post_process_exception "missing required active authority" ≠
      .invalidAccountName m) ∧
    (∀ m, post_process_exception "missing required active authority" ≠
      .noMethodWithName m) ∧
    (∀ m, post_process_exception "missing required active authority" ≠
      .unhandledRPCError m) ∧
    post_process_exception "missing required active authority" ≠
      .reraised := by
  have h : post_process_exception "missing required active authority" =
      .missingRequiredActiveAuthority := by decide
  exact ⟨h, fun m => by simp [h], fun m => by simp [h], fun m => by simp [h],
         fun m => by simp [h], by simp [h]⟩

/-- C8 counterexample: the URL `wsz://node` has scheme `wsz`, which is none
of ws, wss, http, https, yet the selector returns a WebSocket connection
instead of failing — the check is on the first characters of the URL, not
on the scheme. -/
theorem connection_selector_scheme_counterexample :
    urlScheme "wsz://node" = "wsz" ∧
    ("wsz" ≠ "ws" ∧ "wsz" ≠ "wss" ∧ "wsz" ≠ "http" ∧ "wsz" ≠ "https") ∧
    updated_connection "wsz://node" = .ok (.websocket "wsz://node") := by
  decide

/-- C8 amended: selection is by URL prefix: a URL starting with `ws` (which
includes the schemes ws and wss) gets a WebSocket connection, otherwise one
starting with `http` (http and https) gets an HTTP connection, and only a
URL starting with neither fails with the configuration error. -/
theorem connection_selector_url_start (url : String) :
    (url.take 2 = "ws" → updated_connection url = .ok (.websocket url)) ∧
    (url.take 2 ≠ "ws" → url.take 4 = "http" →
      updated_connection url = .ok (.http url)) ∧
    (url.take 2 ≠ "ws" → url.take 4 ≠ "http" →
      updated_connection url =
        .error (.valueError "Only support http(s) and ws(s) connections!")) := by
  refine ⟨fun h => ?_, fun h1 h2 => ?_, fun h1 h2 => ?_⟩ <;>
    simp [updated_connection, *]

/-- Witness for C8 amended on the three documented prefixes. -/
theorem connection_selector_url_start_witness :
    updated_connection "ws://node" = .ok (.websocket "ws://node") ∧
    updated_connection "https://node" = .ok (.http "https://node") ∧
    updated_connection "ftp://node" =
      .error (.valueError "Only support http(s) and ws(s) connections!") :=
  ⟨(connection_selector_url_start "ws://node").1 (by decide),
   (connection_selector_url_start "https://node").2.1 (by decide) (by decide),
   (connection_selector_url_start "ftp://node").2.2 (by decide) (by decide)⟩

/-- C10 counterexample: starting from the configured default of 5 retries, a
call overriding num_retries to 2 stores 2 in the connection state, and the
next call without an override runs with 2, not with the configured 5. -/
theorem num_retries_sticky_counterexample :
    rpcMethodCall [("get_block", "database_api")] ⟨5, 0⟩ "get_block" []
        none (some 2) =
      .ok ⟨⟨"call", "database_api", "get_block", [], 0⟩, 2, ⟨2, 1⟩⟩ ∧
    rpcMethodCall [("get_block", "database_api")] ⟨2, 1⟩ "get_block" []
        none none =
      .ok ⟨⟨"call", "database_api", "get_block", [], 1⟩, 2, ⟨2, 2⟩⟩ ∧
    (2 : ℤ) ≠ 5 := by
  decide

/-- C10 amended: a per-call num_retries override is written back to the
connection state: the overriding call runs with it and stores it, and a
later call without an override runs with the stored value — the most
recent override — rather than with the original configured default. -/
theorem num_retries_override_persists (table : List (String × String))
    (s : RpcState) (name d : String) (args : List String) (k : ℤ)
    (h : lookupApi table name = some d) :
    rpcMethodCall table s name args none (some k) =
      .ok ⟨⟨"call", d, name, args, s.next_request_id⟩, k,
           ⟨k, s.next_request_id + 1⟩⟩ ∧
    rpcMethodCall table s name args none none =
      .ok ⟨⟨"call", d, name, args, s.next_request_id⟩, s.num_retries,
           ⟨s.num_retries, s.next_request_id + 1⟩⟩ := by
  constructor <;> simp [rpcMethodCall, h]

/-- Witness for C10 amended: the override 2 is stored; a call without an
override uses the stored value. -/
theorem num_retries_override_persists_witness :
    rpcMethodCall [("get_block", "database_api")] ⟨5, 0⟩ "get_block" []
        none (some 2) =
      .ok ⟨⟨"call", "database_api", "get_block", [], 0⟩, 2, ⟨2, 1⟩⟩ ∧
    rpcMethodCall [("get_block", "database_api")] ⟨5, 0⟩ "get_block" []
        none none =
      .ok ⟨⟨"call", "database_api", "get_block", [], 0⟩, 5, ⟨5, 1⟩⟩ :=
  ⟨(num_retries_override_persists [("get_block", "database_api")] ⟨5, 0⟩
      "get_block" "database_api" [] 2 (by decide)).1,
   (num_retries_override_persists [("get_block", "database_api")] ⟨5, 0⟩
      "get_block" "database_api" [] 2 (by decide)).2⟩

/-- C1 counterexample: with percent-base 10000 (CHAIN_1_PERCENT = 100) and
energy 0.375, the built operation carries 37 — Python int() truncates —
while round(0.375 * 10000 / 100) = round(37.5) = 38. -/
theorem award_truncates_not_rounds_counterexample :
    award 100 "bob" (3 / 8) "" none (some "alice") ⟨none⟩ none =
      .ok ⟨⟨"alice", "bob", 37, 0, "", []⟩, "alice", .regular⟩ ∧
    round ((3 / 8 : ℚ) * 10000 / 100) = 38 ∧ (37 : ℤ) ≠ 38 := by
  refine ⟨?_, ?_, by decide⟩
  · have h : resolveAccount (some "alice") ⟨none⟩ = .ok "alice" := by decide
    simp only [award, h, ok_bind]
    norm_num [pyInt]
  · norm_num [round_eq]

/-- C1 amended: `award` and `set_withdraw_vesting_route` both convert their
energy/percentage argument to internal integer units by Python int()
truncation toward zero of e * B/100 (B the percent-base, B/100 being
CHAIN_1_PERCENT), not by rounding to nearest; the two builders use the same
conversion. -/
theorem award_route_percent_truncation (chain1Percent : ℤ) (e pct : ℚ)
    (receiver memo toA : String) (bens : Option (List (String × ℤ)))
    (account : Option String) (config : Config) (cs : Option ℤ)
    (autoVest : Bool) (a : String)
    (h : resolveAccount account config = .ok a) :
    award chain1Percent receiver e memo bens account config cs =
      .ok ⟨⟨a, receiver, pyInt (e * (100 * chain1Percent) / 100),
            cs.getD 0, memo, bens.getD []⟩, a, .regular⟩ ∧
    set_withdraw_vesting_route chain1Percent toA pct account autoVest
        config =
      .ok ⟨⟨a, toA, pyInt (pct * (100 * chain1Percent) / 100), autoVest⟩,
           a, .active⟩ := by
  have he : e * (100 * (chain1Percent : ℚ)) / 100 = e * chain1Percent := by
    ring
  have hp : pct * (100 * (chain1Percent : ℚ)) / 100 = pct * chain1Percent := by
    ring
  constructor <;> simp [award, set_withdraw_vesting_route, h, he, hp, ok_bind]

/-- Witness for C1 amended at the spec examples: energy 50 percent with
percent-base 10000 gives 5000 internal units, percentage 25 gives 2500. -/
theorem award_route_percent_truncation_witness :
    award 100 "bob" 50 "" none (some "alice") ⟨none⟩ none =
      .ok ⟨⟨"alice", "bob", pyInt ((50 : ℚ) * (100 * 100) / 100), 0, "",
            []⟩, "alice", .regular⟩ ∧
    set_withdraw_vesting_route 100 "carol" 50 (some "alice") false ⟨none⟩ =
      .ok ⟨⟨"alice", "carol", pyInt ((50 : ℚ) * (100 * 100) / 100), false⟩,
           "alice", .active⟩ ∧
    pyInt ((50 : ℚ) * (100 * 100) / 100) = 5000 :=
  ⟨(award_route_percent_truncation 100 50 50 "bob" "" "carol" none
      (some "alice") ⟨none⟩ none false "alice" (by decide)).1,
   (award_route_percent_truncation 100 50 50 "bob" "" "carol" none
      (some "alice") ⟨none⟩ none false "alice" (by decide)).2,
   by norm_num [pyInt]⟩

/-- C5: `transfer` embeds the ciphertext of the external memo codec exactly
when the memo is non-empty and starts with the sentinel character, with the
encryption applied to the memo before the operation value exists; otherwise
the memo is embedded verbatim and the built operation does not depend on
the codec at all — it is never invoked. -/
theorem transfer_memo_sentinel (amountRender : ℚ → String → String)
    (encrypt encrypt2 : String → String → String → String)
    (toAcct : String) (amount : ℚ) (asset memo : String)
    (account : Option String) (config : Config) (a : String)
    (h : resolveAccount account config = .ok a) :
    (memo ≠ "" ∧ memo.front = '#' →
      transfer amountRender encrypt toAcct amount asset memo account config =
        .ok ⟨⟨a, toAcct, amountRender amount asset, encrypt a toAcct memo⟩,
             a, .active⟩) ∧
    (¬(memo ≠ "" ∧ memo.front = '#') →
      transfer amountRender encrypt toAcct amount asset memo account config =
        .ok ⟨⟨a, toAcct, amountRender amount asset, memo⟩, a, .active⟩ ∧
      transfer amountRender encrypt toAcct amount asset memo account config =
        transfer amountRender encrypt2 toAcct amount asset memo account
          config) := by
  constructor
  · intro hs; simp [transfer, h, hs, ok_bind]
  · intro hs
    constructor <;> simp [transfer, h, hs, ok_bind]

/-- Witness for C5: a `#`-memo is embedded encrypted, a plain memo
verbatim. -/
theorem transfer_memo_sentinel_witness :
    transfer (fun _ a => "1.500 " ++ a) (fun f t m => f ++ t ++ m) "bob"
        (3 / 2) "VIZ" "#secret" (some "alice") ⟨none⟩ =
      .ok ⟨⟨"alice", "bob", "1.500 VIZ", "alicebob#secret"⟩, "alice",
           .active⟩ ∧
    transfer (fun _ a => "1.500 " ++ a) (fun f t m => f ++ t ++ m) "bob"
        (3 / 2) "VIZ" "plain" (some "alice") ⟨none⟩ =
      .ok ⟨⟨"alice", "bob", "1.500 VIZ", "plain"⟩, "alice", .active⟩ :=
  ⟨(transfer_memo_sentinel (fun _ a => "1.500 " ++ a)
      (fun f t m => f ++ t ++ m) (fun f t m => f ++ t ++ m) "bob" (3 / 2)
      "VIZ" "#secret" (some "alice") ⟨none⟩ "alice" (by decide)).1
      (by decide),
   ((transfer_memo_sentinel (fun _ a => "1.500 " ++ a)
      (fun f t m => f ++ t ++ m) (fun f t m => f ++ t ++ m) "bob" (3 / 2)
      "VIZ" "plain" (some "alice") ⟨none⟩ "alice" (by decide)).2
      (by decide)).1⟩

/-- C6: every account-taking builder resolves its acting account through the
same prelude: an explicit non-empty account is used as given; otherwise the
configured default account is the fallback; when neither is available, the
builder fails with the missing-account error whatever its action-specific
arguments are, so nothing is validated, built, or handed to the finalizer. -/
theorem builder_account_fallback (account : Option String) (config : Config)
    (amountRender : ℚ → String → String)
    (encrypt : String → String → String → String)
    (precisions : String → ℕ) (cp : ChainParams) (chain1Percent : ℤ)
    (toA receiver memo asset : String) (amount e pct : ℚ)
    (bens : Option (List (String × ℤ))) (cs : Option ℤ)
    (toOpt : Option String) (autoVest : Bool) :
    (∀ a, account = some a → a ≠ "" →
      resolveAccount account config = .ok a) ∧
    (isFalsy account = true → ∀ d, config.default_account = some d →
      d ≠ "" → resolveAccount account config = .ok d) ∧
    (isFalsy account = true → isFalsy config.default_account = true →
      resolveAccount account config =
        .error (.valueError "You need to provide an account") ∧
      transfer amountRender encrypt toA amount asset memo account config =
        .error (.valueError "You need to provide an account") ∧
      award chain1Percent receiver e memo bens account config cs =
        .error (.valueError "You need to provide an account") ∧
      withdraw_vesting precisions cp amount account config =
        .error (.valueError "You need to provide an account") ∧
      transfer_to_vesting precisions cp amount toOpt account config =
        .error (.valueError "You need to provide an account") ∧
      set_withdraw_vesting_route chain1Percent toA pct account autoVest
          config =
        .error (.valueError "You need to provide an account")) := by
  refine ⟨?_, ?_, ?_⟩
  · rintro a rfl ha
    exact resolveAccount_explicit config ha
  · intro h1 d h2 h3
    exact resolveAccount_fallback config h1 h2 h3
  · intro h1 h2
    have he := resolveAccount_missing h1 h2
    exact ⟨he, by simp [transfer, he, error_bind], by simp [award, he, error_bind],
           by simp [withdraw_vesting, he, error_bind],
           by simp [transfer_to_vesting, he, error_bind],
           by simp [set_withdraw_vesting_route, he, error_bind]⟩

/-- Witness for C6: explicit account wins, default account is the fallback,
and with neither the builders fail with the missing-account error. -/
theorem builder_account_fallback_witness :
    resolveAccount (some "alice") ⟨some "dflt"⟩ = .ok "alice" ∧
    resolveAccount none ⟨some "dflt"⟩ = .ok "dflt" ∧
    transfer (fun _ _ => "") (fun _ _ m => m) "bob" 1 "VIZ" "" none ⟨none⟩ =
      .error (.valueError "You need to provide an account") ∧
    award 100 "bob" 50 "" none none ⟨none⟩ none =
      .error (.valueError "You need to provide an account") :=
  ⟨(builder_account_fallback (some "alice") ⟨some "dflt"⟩ (fun _ _ => "")
      (fun _ _ m => m) (fun _ => 3) ⟨"VIZ", "SHARES"⟩ 100 "bob" "bob" ""
      "VIZ" 1 50 50 none none none false).1 "alice" rfl (by decide),
   (builder_account_fallback none ⟨some "dflt"⟩ (fun _ _ => "")
      (fun _ _ m => m) (fun _ => 3) ⟨"VIZ", "SHARES"⟩ 100 "bob" "bob" ""
      "VIZ" 1 50 50 none none none false).2.1 (by decide) "dflt" rfl
      (by decide),
   ((builder_account_fallback none ⟨none⟩ (fun _ _ => "")
      (fun _ _ m => m) (fun _ => 3) ⟨"VIZ", "SHARES"⟩ 100 "bob" "bob" ""
      "VIZ" 1 50 50 none none none false).2.2 (by decide)
      (by decide)).2.1,
   ((builder_account_fallback none ⟨none⟩ (fun _ _ => "")
      (fun _ _ m => m) (fun _ => 3) ⟨"VIZ", "SHARES"⟩ 100 "bob" "bob" ""
      "VIZ" 1 50 50 none none none false).2.2 (by decide)
      (by decide)).2.2.1⟩

/-- C9 counterexample: SHARES at its declared precision 6 with amount 10^-7:
the built operation carries the monetary string "0.000000 SHARES", which
parses back at precision 6 to 0, not to the original amount — an amount
finer than the declared precision is rounded away and does not
round-trip. -/
theorem format_roundtrip_counterexample :
    withdraw_vesting (fun _ => 6) ⟨"VIZ", "SHARES"⟩ (1 / 10000000)
        (some "alice") ⟨none⟩ =
      .ok ⟨⟨"alice", "0.000000 SHARES"⟩, "alice", .active⟩ ∧
    parseFixed? "0.000000" 6 = some 0 ∧ (0 : ℚ) ≠ 1 / 10000000 := by
  have h : resolveAccount (some "alice") ⟨none⟩ = .ok "alice" := by decide
  have h1 : roundHalfEven ((1 / 10000000 : ℚ) * 10 ^ 6) = 0 := by
    norm_num [roundHalfEven]
  have hfmt : formatFixed (1 / 10000000) 6 = "0.000000" := by
    rw [formatFixed, h1, formatFixedInt]
    norm_num [natDecChars, decDigitsBE, fracPartChars, fracDigitsBE,
              Nat.digits_zero, digitChar10]
    decide
  refine ⟨?_, ?_, by norm_num⟩
  · simp only [withdraw_vesting, h, ok_bind]
    rw [hfmt]
    rfl
  · have hsplit : splitAtDot "0.000000".toList =
        (['0'], some ['0', '0', '0', '0', '0', '0']) := by decide
    have hpd1 : parseDigits? ['0'] = some [0] := by decide
    have hpd2 : parseDigits? ['0', '0', '0', '0', '0', '0'] =
        some [0, 0, 0, 0, 0, 0] := by decide
    rw [parseFixed?]
    rw [if_neg (by decide)]
    rw [parseUnsignedFixed?, hsplit]
    simp only [Option.getD_some]
    rw [if_pos (by decide)]
    simp only [hpd1, hpd2]
    rw [decValue]
    norm_num [Nat.ofDigits_cons, Nat.ofDigits_nil]

/-- C9 amended: every monetary string is formatted at exactly the declared
precision (its fractional part has exactly p digits), and the round-trip
holds exactly for the amounts representable at that precision: every
integer multiple of 10^-p formatted at precision p parses back to the
original value, while finer amounts are rounded and need not round-trip. -/
theorem format_roundtrip_precision :
    (∀ (n : ℤ) (p : ℕ),
      parseFixed? (formatFixed ((n : ℚ) / 10 ^ p) p) p =
        some ((n : ℚ) / 10 ^ p)) ∧
    (∀ (q : ℚ) (p : ℕ), 0 < p → fracDigitCount (formatFixed q p) = some p) ∧
    (∀ (precisions : String → ℕ) (cp : ChainParams) (amount : ℚ)
        (account : Option String) (config : Config) (a : String),
      resolveAccount account config = .ok a →
      withdraw_vesting precisions cp amount account config =
        .ok ⟨⟨a, formatFixed amount (precisions cp.shares_symbol) ++ " " ++
              cp.shares_symbol⟩, a, .active⟩) ∧
    (∀ (precisions : String → ℕ) (cp : ChainParams) (amount : ℚ)
        (toOpt account : Option String) (config : Config) (a : String),
      resolveAccount account config = .ok a →
      transfer_to_vesting precisions cp amount toOpt account config =
        .ok ⟨⟨a, if isFalsy toOpt then a else toOpt.getD "",
              formatFixed amount (precisions cp.core_symbol) ++ " " ++
                cp.core_symbol⟩, a, .active⟩) := by
  refine ⟨?_, ?_, ?_, ?_⟩
  · intro n p
    rw [formatFixed_scaled, parseFixed?_formatFixedInt]
  · intro q p hp
    rw [formatFixed]
    exact fracDigitCount_formatFixedInt _ hp
  · intro precisions cp amount account config a h
    simp [withdraw_vesting, h, ok_bind]
  · intro precisions cp amount toOpt account config a h
    simp [transfer_to_vesting, h, ok_bind]

/-- Witness for C9 amended: 2.500 round-trips at precision 3; a format at
precision 3 carries exactly 3 fractional digits; the two vesting builders
embed the formatted monetary strings. -/
theorem format_roundtrip_precision_witness :
    parseFixed? (formatFixed (((2500 : ℤ) : ℚ) / 10 ^ 3) 3) 3 =
      some (((2500 : ℤ) : ℚ) / 10 ^ 3) ∧
    fracDigitCount (formatFixed ((1 : ℚ) / 8) 3) = some 3 ∧
    withdraw_vesting (fun _ => 6) ⟨"VIZ", "SHARES"⟩ (5 / 2) (some "alice")
        ⟨none⟩ =
      .ok ⟨⟨"alice", formatFixed (5 / 2) 6 ++ " " ++ "SHARES"⟩, "alice",
           .active⟩ ∧
    transfer_to_vesting (fun _ => 3) ⟨"VIZ", "SHARES"⟩ (5 / 2) none
        (some "alice") ⟨none⟩ =
      .ok ⟨⟨"alice", "alice", formatFixed (5 / 2) 3 ++ " " ++ "VIZ"⟩,
           "alice", .active⟩ :=
  ⟨format_roundtrip_precision.1 2500 3,
   format_roundtrip_precision.2.1 ((1 : ℚ) / 8) 3 (by norm_num),
   format_roundtrip_precision.2.2.1 (fun _ => 6) ⟨"VIZ", "SHARES"⟩ (5 / 2)
     (some "alice") ⟨none⟩ "alice" (by decide),
   format_roundtrip_precision.2.2.2 (fun _ => 3) ⟨"VIZ", "SHARES"⟩ (5 / 2)
     none (some "alice") ⟨none⟩ "alice" (by decide)⟩

end VizLib
